import Mathlib

/-!
Verification development for the batch asset-generation job-runner scripts
of the `first100-landing` repository.

The embedding below translates, operation by operation, the JavaScript of
  * the showcase-variant generator script (slugify, parseArgs' option record,
    buildJobs, buildPrompt, estimateCost, the per-job executor loop of `main`,
    and the exit-code logic),
  * `scripts/illustration-prompts.js` (STYLE_GUIDE, OBJECTS, buildPrompt,
    getObjectsByCategory, estimateCost),
  * the illustration generator script (generateIllustration with its 404
    fallback, the main loop's success/fail counters, and exit-code logic),
  * `scripts/generate-word-translations.js` (translateLanguage's filtering of
    API responses, ensureEnglishWords, the per-language update loop and
    reorderWords).
JavaScript strings are modelled as Lean `String`, JS objects used as string
maps as association lists `List (String × α)`, mutation as explicit state
passing, thrown/caught errors as `Except`/sum results, and the external API
as an explicit oracle function passed in.  Dollar amounts are modelled as
exact rationals `ℚ`.
-/

namespace First100

/-- JS truthiness-based `a || b` on strings: the empty string is falsy. -/
def jsOr (a b : String) : String := if a = "" then b else a

/-- Characters allowed by the slug character class `[a-z0-9]`. -/
def isSlugChar (c : Char) : Bool := (('a' ≤ c && c ≤ 'z') || ('0' ≤ c && c ≤ '9'))

/-- `.replace(/&/g, 'and')` on the character list. -/
def replaceAmp : List Char → List Char
  | [] => []
  | c :: cs => if c = '&' then 'a' :: 'n' :: 'd' :: replaceAmp cs else c :: replaceAmp cs

/-- First half of `.replace(/[^a-z0-9]+/g, '-')`: map every character outside
`[a-z0-9]` to `'-'`. -/
def dashify (cs : List Char) : List Char := cs.map (fun c => if isSlugChar c then c else '-')

/-- Second half of `.replace(/[^a-z0-9]+/g, '-')`: collapse each run of
consecutive dashes (images of a maximal `[^a-z0-9]+` run) to a single dash. -/
def dedupDash : List Char → List Char
  | [] => []
  | [c] => [c]
  | c :: d :: rest =>
    if c = '-' && d = '-' then dedupDash (d :: rest) else c :: dedupDash (d :: rest)

/-- `.replace(/^-+|-+$/g, '')`: strip leading and trailing dashes. -/
def stripDashes (cs : List Char) : List Char :=
  ((cs.dropWhile (· = '-')).reverse.dropWhile (· = '-')).reverse

/-- `.trim()` on the character list: drop whitespace from both ends. -/
def trimChars (cs : List Char) : List Char :=
  ((cs.dropWhile Char.isWhitespace).reverse.dropWhile Char.isWhitespace).reverse

/-- `slugify(value)` from the showcase generator script:
lower-case, trim, `&` → `and`, collapse non-`[a-z0-9]` runs to `-`,
strip leading/trailing `-`. -/
def slugify (value : String) : String :=
  String.mk
    (stripDashes (dedupDash (dashify (replaceAmp (trimChars (value.data.map Char.toLower))))))

/-- A language pair (`{ source, target }`). -/
structure LanguagePair where
  source : String
  target : String
deriving DecidableEq, Repr

/-- `CATEGORIES` from the showcase generator script. -/
def CATEGORIES : List String :=
  ["Animals", "Colors", "Body Parts", "Family", "Food & Drink", "Numbers",
   "Actions", "Nature", "Feelings", "Core Responses", "Home Objects", "Daily Words"]

/-- `DEFAULT_LANGUAGE_PAIRS` from the showcase generator script. -/
def DEFAULT_LANGUAGE_PAIRS : List LanguagePair :=
  [⟨"English", "Somali"⟩, ⟨"English", "Spanish"⟩, ⟨"English", "Arabic"⟩,
   ⟨"English", "French"⟩, ⟨"English", "Swahili"⟩, ⟨"English", "Amharic"⟩]

/-- `OUTPUT_DIR` of the showcase script, relative to the repository root
(`path.join(ROOT_DIR, 'public', 'showcase')`). -/
def OUTPUT_DIR : String := "public/showcase"

/-- The showcase script's options record as produced by `parseArgs`
(fields that influence the modelled behaviour). -/
structure ShowcaseOptions where
  dryRun : Bool := false
  maxJobs : Int := 12
  editModel : String := "gpt-image-1"
  fallbackModel : String := "gpt-image-1.5"
  allowFallback : Bool := false
  categories : Option (List String) := none
  pairs : Option (List LanguagePair) := none
  skipExisting : Bool := true

/-- A showcase job as pushed by `buildJobs`. -/
structure Job where
  category : String
  categorySlug : String
  pair : LanguagePair
  pairSlug : String
  outputPath : String
deriving DecidableEq, Repr

/-- `${slugify(pair.source)}-${slugify(pair.target)}`. -/
def pairSlugOf (pair : LanguagePair) : String :=
  slugify pair.source ++ "-" ++ slugify pair.target

/-- `path.join(OUTPUT_DIR, pairSlug, categorySlug + '.png')`. -/
def outputPath (pairSlug categorySlug : String) : String :=
  OUTPUT_DIR ++ "/" ++ pairSlug ++ "/" ++ categorySlug ++ ".png"

/-- Cyclic indexing `l[i % l.length]`; the script only indexes non-empty
lists, for which the default is never reached. -/
def cycleGet (l : List String) (i : ℕ) : String := l.getD (i % l.length) ""

/-- Cyclic indexing into the pair list. -/
def cycleGetPair (l : List LanguagePair) (i : ℕ) : LanguagePair :=
  l.getD (i % l.length) ⟨"", ""⟩

/-- The job built at loop index `index` in `buildJobs`. -/
def mkJob (selectedCategories : List String) (selectedPairs : List LanguagePair)
    (index : ℕ) : Job :=
  let category := cycleGet selectedCategories index
  let pair := cycleGetPair selectedPairs (index / selectedCategories.length)
  let pairSlug := pairSlugOf pair
  let categorySlug := slugify category
  { category := category
    categorySlug := categorySlug
    pair := pair
    pairSlug := pairSlug
    outputPath := outputPath pairSlug categorySlug }

/-- `options.categories && options.categories.length > 0 ? options.categories : CATEGORIES`. -/
def selectedCategoriesOf (options : ShowcaseOptions) : List String :=
  match options.categories with
  | some l => if l.length > 0 then l else CATEGORIES
  | none => CATEGORIES

/-- `options.pairs && options.pairs.length > 0 ? options.pairs : DEFAULT_LANGUAGE_PAIRS`. -/
def selectedPairsOf (options : ShowcaseOptions) : List LanguagePair :=
  match options.pairs with
  | some l => if l.length > 0 then l else DEFAULT_LANGUAGE_PAIRS
  | none => DEFAULT_LANGUAGE_PAIRS

/-- `buildJobs(options)`: `targetCount = Math.max(1, options.maxJobs)`; the
`while (jobs.length < targetCount)` loop pushes exactly one job per index
`0, 1, …, targetCount - 1`. -/
def buildJobs (options : ShowcaseOptions) : List Job :=
  let selectedCategories := selectedCategoriesOf options
  let selectedPairs := selectedPairsOf options
  let targetCount := (max 1 options.maxJobs).toNat
  (List.range targetCount).map (mkJob selectedCategories selectedPairs)

/-- All (language pair, category) combinations over the configured lists. -/
def allShowcaseCombos : List (LanguagePair × String) :=
  DEFAULT_LANGUAGE_PAIRS.flatMap (fun p => CATEGORIES.map (fun c => (p, c)))

/-- The output path of the combination `(p, c)` as computed in `buildJobs`. -/
def comboPath (pc : LanguagePair × String) : String :=
  outputPath (pairSlugOf pc.1) (slugify pc.2)

/-- `estimateCost(jobCount)` from the showcase generator script
(rates 0.03 / 0.05 / 0.08 dollars per image, modelled exactly in ℚ). -/
structure ShowcaseCost where
  min : ℚ
  estimated : ℚ
  max : ℚ
deriving Repr

def estimateCostShowcase (jobCount : ℕ) : ShowcaseCost :=
  { min := jobCount * 0.03
    estimated := jobCount * 0.05
    max := jobCount * 0.08 }

/-- `estimateCost(count)` from `scripts/illustration-prompts.js`
(rates 0.02 / 0.04 / 0.05 dollars per image, modelled exactly in ℚ). -/
structure PromptsCost where
  estimated : ℚ
  min : ℚ
  max : ℚ
  count : ℕ
deriving Repr

def estimateCost (count : ℕ) : PromptsCost :=
  { estimated := count * 0.04
    min := count * 0.02
    max := count * 0.05
    count := count }

/-- An entry of `OBJECTS` in `scripts/illustration-prompts.js`. -/
structure IllustrationObject where
  id : String
  prompt : String
  category : String
deriving DecidableEq, Repr

/-- `STYLE_GUIDE` from `scripts/illustration-prompts.js` (the template literal
after `.trim()`). -/
def STYLE_GUIDE : String :=
  "Flat vector illustration style.\n" ++
  "Soft rounded shapes with smooth curves.\n" ++
  "Simple geometry, minimal detail.\n" ++
  "Bright but gentle colors (pastel-leaning, nothing harsh).\n" ++
  "No harsh contrast or sharp edges.\n" ++
  "Friendly, neutral, non-scary aesthetic suitable for toddlers.\n" ++
  "High clarity at small sizes (32px-64px must be recognizable).\n" ++
  "No text, letters, numbers, or symbols anywhere in the illustration.\n" ++
  "No scenery, backgrounds, or environmental context.\n" ++
  "No ground line, floor shadows, or drop shadows.\n" ++
  "No strokes or outlines around shapes.\n" ++
  "Minimal shading - flat colors preferred, subtle gradients allowed sparingly.\n" ++
  "Rounded corners on all applicable shapes.\n" ++
  "Single isolated object centered on a pure white or transparent background.\n" ++
  "Style similar to modern educational apps for young children."

/-- `buildPrompt(object)` from `scripts/illustration-prompts.js`:
`` `${object.prompt}. ${STYLE_GUIDE}` ``. -/
def buildPrompt (object : IllustrationObject) : String :=
  object.prompt ++ ". " ++ STYLE_GUIDE

/-- `OBJECTS` from `scripts/illustration-prompts.js`. -/
def OBJECTS : List IllustrationObject :=
  [⟨"cat", "A sitting cat facing forward, orange tabby with simple friendly round eyes", "animals"⟩,
   ⟨"dog", "A sitting dog facing forward, golden retriever puppy with happy expression and tongue out slightly", "animals"⟩,
   ⟨"bird", "A small songbird perched, bright blue with orange chest, side profile", "animals"⟩,
   ⟨"fish", "A single goldfish swimming, orange with simple fins, side view", "animals"⟩,
   ⟨"butterfly", "A butterfly with wings spread open, symmetrical, blue and purple wings", "animals"⟩,
   ⟨"elephant", "A baby elephant facing slightly to the side, gray with big ears and small trunk raised", "animals"⟩,
   ⟨"rabbit", "A sitting bunny rabbit, white with long ears up, facing forward", "animals"⟩,
   ⟨"duck", "A yellow rubber duck or duckling, classic friendly shape, side view", "animals"⟩,
   ⟨"apple", "A single red apple with a small green leaf on a short brown stem", "food"⟩,
   ⟨"banana", "A single yellow banana, slightly curved, bright and ripe", "food"⟩,
   ⟨"orange", "A whole orange fruit with small dimpled texture and tiny green leaf", "food"⟩,
   ⟨"strawberry", "A single red strawberry with green leaves on top and visible seeds", "food"⟩,
   ⟨"carrot", "An orange carrot with green leafy top, tapered shape", "food"⟩,
   ⟨"cookie", "A round chocolate chip cookie, golden brown with visible chips", "food"⟩,
   ⟨"milk", "A glass of white milk, simple cylindrical glass shape", "food"⟩,
   ⟨"bread", "A slice of bread, light tan/beige color, simple rectangular shape with rounded top", "food"⟩,
   ⟨"ball", "A simple round ball with two-tone colors, red and white sections like a beach ball", "toys"⟩,
   ⟨"blocks", "Three colorful stacking blocks in red, blue, and yellow, arranged in a small stack", "toys"⟩,
   ⟨"teddy", "A sitting teddy bear, brown plush with round ears and friendly face", "toys"⟩,
   ⟨"car", "A simple toy car, red with visible wheels, side profile", "toys"⟩,
   ⟨"star", "A five-pointed star, bright yellow/gold, filled solid", "shapes"⟩,
   ⟨"heart", "A simple heart shape, solid pink/red, symmetrical", "shapes"⟩,
   ⟨"moon", "A crescent moon, pale yellow/cream color, simple curved shape", "nature"⟩,
   ⟨"sun", "A happy sun with simple rays extending outward, warm yellow/orange", "nature"⟩,
   ⟨"flower", "A simple daisy flower, white petals with yellow center, single green stem", "nature"⟩,
   ⟨"tree", "A simple tree with brown trunk and round green leafy top, stylized", "nature"⟩,
   ⟨"cloud", "A fluffy white cloud, simple rounded cumulus shape", "nature"⟩,
   ⟨"rainbow", "A simple rainbow arc with traditional ROYGBIV colors, semicircle", "nature"⟩,
   ⟨"shoe", "A single child sneaker shoe, red with white sole, side view", "clothing"⟩,
   ⟨"hat", "A simple baseball cap, blue, side/front view", "clothing"⟩,
   ⟨"cup", "A simple drinking cup or mug, blue with a handle, side view", "household"⟩,
   ⟨"book", "A closed book, red cover, slightly angled view showing spine", "household"⟩,
   ⟨"chair", "A simple wooden chair, brown, front-angled view", "household"⟩]

/-- `getObjectsByCategory(category)` from `scripts/illustration-prompts.js`. -/
def getObjectsByCategory (category : String) : List IllustrationObject :=
  OBJECTS.filter (fun obj => obj.category == category)

/-! ### Showcase job executor (the `main` loop of the showcase generator)

The filesystem is modelled as the list of paths that exist
(`fs.existsSync p` ⟺ `p ∈ fs`; `fs.writeFileSync` prepends the path).
The two network entry points `client.images.edit` (inside
`generateFromEdit`) and `client.images.generate` (inside
`generateFallback`) are modelled as oracle functions from the job to
either a thrown error or a response whose `data?.[0]?.b64_json` field is
an `Option String`.  The oracles are fixed functions, so two runs with
identical inputs see identical adapter behaviour. -/

/-- A normalized API error (`error?.status ?? error?.response?.status`,
message, optional vendor body). -/
structure ApiError where
  status : Option ℕ
  message : String
  body : Option String := none
deriving DecidableEq, Repr

/-- The outcome of one underlying API call: a thrown error, or a response
carrying `data?.[0]?.b64_json` (which may be absent). -/
abbrev ApiCall : Type := Except ApiError (Option String)

/-- A manifest item as pushed by the showcase `main` loop. -/
structure ManifestItem where
  id : String
  category : String
  sourceLanguage : String
  targetLanguage : String
  pairSlug : String
  imagePath : String
  method : String
  model : Option String
deriving DecidableEq, Repr

/-- The manifest item recorded when a job is skipped because its output
already exists (`method: 'existing', model: null`). -/
def existingItem (job : Job) : ManifestItem :=
  { id := job.pairSlug ++ "-" ++ job.categorySlug
    category := job.category
    sourceLanguage := job.pair.source
    targetLanguage := job.pair.target
    pairSlug := job.pairSlug
    imagePath := "/showcase/" ++ job.pairSlug ++ "/" ++ job.categorySlug ++ ".png"
    method := "existing"
    model := none }

/-- The manifest item recorded when a job's image was generated
(`method: result.method, model: result.model`). -/
def generatedItem (job : Job) (method model : String) : ManifestItem :=
  { existingItem job with method := method, model := some model }

/-- The per-job outcome of one iteration of the showcase `main` loop. -/
structure JobOutcome where
  item : Option ManifestItem
  failed : Bool
  editCalls : ℕ
  fallbackCalls : ℕ
  fs : List String

/-- One iteration of the showcase `main` loop (skip-existing check, primary
`generateFromEdit`, optional `generateFallback`, payload check, file write,
manifest push; any thrown error is caught and counted as a failure). -/
def runJob (options : ShowcaseOptions) (edit fallback : Job → ApiCall)
    (fs : List String) (job : Job) : JobOutcome :=
  if options.skipExisting ∧ job.outputPath ∈ fs then
    { item := some (existingItem job), failed := false,
      editCalls := 0, fallbackCalls := 0, fs := fs }
  else
    match edit job with
    | .ok b64 =>
      match b64 with
      | some _ =>
        { item := some (generatedItem job "edit" options.editModel), failed := false,
          editCalls := 1, fallbackCalls := 0, fs := job.outputPath :: fs }
      | none =>  -- `if (!result.imageB64) throw new Error('No image data returned.')`
        { item := none, failed := true, editCalls := 1, fallbackCalls := 0, fs := fs }
    | .error _ =>
      if options.allowFallback then
        match fallback job with
        | .ok b64 =>
          match b64 with
          | some _ =>
            { item := some (generatedItem job "generate-fallback" options.fallbackModel),
              failed := false, editCalls := 1, fallbackCalls := 1,
              fs := job.outputPath :: fs }
          | none =>
            { item := none, failed := true, editCalls := 1, fallbackCalls := 1, fs := fs }
        | .error _ =>
          { item := none, failed := true, editCalls := 1, fallbackCalls := 1, fs := fs }
      else  -- `throw new Error('edit failed: …')`, caught by the job-level catch
        { item := none, failed := true, editCalls := 1, fallbackCalls := 0, fs := fs }

/-- The accumulated state of a showcase run. -/
structure ShowcaseRun where
  manifestItems : List ManifestItem
  failures : ℕ
  editCalls : ℕ
  fallbackCalls : ℕ
  fs : List String
deriving Repr

/-- The showcase `main` loop over the catalog, threading the filesystem. -/
def runJobs (options : ShowcaseOptions) (edit fallback : Job → ApiCall) :
    List String → List Job → ShowcaseRun
  | fs, [] => { manifestItems := [], failures := 0, editCalls := 0, fallbackCalls := 0, fs := fs }
  | fs, job :: rest =>
    let o := runJob options edit fallback fs job
    let r := runJobs options edit fallback o.fs rest
    { manifestItems := o.item.toList ++ r.manifestItems
      failures := (if o.failed then 1 else 0) + r.failures
      editCalls := o.editCalls + r.editCalls
      fallbackCalls := o.fallbackCalls + r.fallbackCalls
      fs := r.fs }

/-- A full (non-dry-run) showcase executor run over `buildJobs options`. -/
def runShowcase (options : ShowcaseOptions) (edit fallback : Job → ApiCall)
    (fs : List String) : ShowcaseRun :=
  runJobs options edit fallback fs (buildJobs options)

/-- The exit status set at the end of a completed showcase run:
`if (failures > 0) process.exitCode = 2;` — otherwise the process exits 0. -/
def showcaseExitCode (run : ShowcaseRun) : ℕ :=
  if run.failures > 0 then 2 else 0

/-! ### Illustration generator (`generateIllustration` with 404 fallback,
and its `main`) -/

/-- Decimal digit character. -/
def digitChar (d : ℕ) : Char := Char.ofNat (48 + d)

/-- Decimal digits of `n` (helper with structural fuel). -/
def natDecAux : ℕ → ℕ → List Char
  | 0, _ => []
  | fuel + 1, n => if n < 10 then [digitChar n] else natDecAux fuel (n / 10) ++ [digitChar (n % 10)]

/-- The decimal string of a natural number (`String(n)` in JS). -/
def natDec (n : ℕ) : String := String.mk (natDecAux (n + 1) n)

/-- `String(error?.status ?? error?.response?.status ?? '')`. -/
def statusString (e : ApiError) : String :=
  match e.status with
  | some n => natDec n
  | none => ""

/-- `String(…status…).includes('404')`. -/
def is404 (e : ApiError) : Bool := decide (List.IsInfix "404".data (statusString e).data)

/-- `isGptImage15(model)` from the illustration generator. -/
def isGptImage15 (model : String) : Bool :=
  model == "gpt-image-1.5" || model.startsWith "gpt-image-1.5-"

/-- `FALLBACK_MODEL` from the illustration generator. -/
def FALLBACK_MODEL : String := "gpt-image-1"

/-- `formatError(error)` from `generateIllustration`:
`` status ? `${msg} (${status})${bodyStr}` : `${msg}${bodyStr}` ``. -/
def formatIllError (e : ApiError) : String :=
  let bodyStr := match e.body with
    | some b => " " ++ b
    | none => ""
  match e.status with
  | some n => e.message ++ " (" ++ natDec n ++ ")" ++ bodyStr
  | none => e.message ++ bodyStr

/-- The result record returned by `generateIllustration`.  A successful
`tryGenerate` carries the base64 payload; a failed one the formatted error. -/
structure IllResult where
  success : Bool
  payload : Option String
  error : Option String
deriving DecidableEq, Repr

/-- One `tryGenerate(model)` call: a thrown error, or the base64 payload.
(A response whose `data[0].b64_json` is absent throws inside `tryGenerate`
and surfaces as an `ApiError` with `status := none`.) -/
abbrev TryGen : Type := String → Except ApiError String

/-- `generateIllustration`: try the requested model; on a 404-class error
with a gpt-image-1.5 model, retry once with `FALLBACK_MODEL`; otherwise fail
immediately.  Also returns the list of models actually invoked (one network
call each). -/
def generateIllustration (tryGen : TryGen) (model : String) : IllResult × List String :=
  match tryGen model with
  | .ok b64 => ({ success := true, payload := some b64, error := none }, [model])
  | .error e =>
    if is404 e && isGptImage15 model then
      match tryGen FALLBACK_MODEL with
      | .ok b64 => ({ success := true, payload := some b64, error := none }, [model, FALLBACK_MODEL])
      | .error e2 =>
        ({ success := false, payload := none, error := some (formatIllError e2) },
         [model, FALLBACK_MODEL])
    else
      ({ success := false, payload := none, error := some (formatIllError e) }, [model])

/-- Options of the illustration generator's `parseArgs` that influence the
modelled behaviour. -/
structure IllOptions where
  dryRun : Bool := false
  only : Option (List String) := none
  category : Option (String) := none
deriving Repr

/-- The run log counts accumulated by the illustration `main` loop. -/
structure IllRunLog where
  successCount : ℕ
  failCount : ℕ
deriving DecidableEq, Repr

/-- The illustration `main` loop: one `generateIllustration` per object,
counting successes and failures; a failure never aborts the loop. -/
def illustrationLoop (tryGen : IllustrationObject → TryGen) (model : String)
    (objects : List IllustrationObject) : IllRunLog :=
  objects.foldl
    (fun log obj =>
      if ((generateIllustration (tryGen obj) model).1).success then
        { log with successCount := log.successCount + 1 }
      else
        { log with failCount := log.failCount + 1 })
    { successCount := 0, failCount := 0 }

/-- The outcome of the illustration `main`: the process exit status and,
when the generation loop ran to completion, its run log. -/
structure IllOutcome where
  exitCode : ℕ
  runLog : Option IllRunLog
deriving DecidableEq, Repr

/-- The illustration generator's `main`: object filtering (`--only`,
`--category`) with `process.exit(1)` on an empty selection, dry-run return,
`process.exit(1)` on a missing API key, then the generation loop.  After the
loop `main` returns without ever assigning `process.exitCode`, so a
completed run — even one with failures — exits 0. -/
def illustrationMain (options : IllOptions) (hasApiKey : Bool)
    (tryGen : IllustrationObject → TryGen) (model : String) : IllOutcome :=
  let objectsToGenerate :=
    match options.only with
    | some ids => OBJECTS.filter (fun obj => ids.contains obj.id)
    | none =>
      match options.category with
      | some c => getObjectsByCategory c
      | none => OBJECTS
  let emptySelection : Bool :=
    match options.only with
    | some _ => objectsToGenerate.length == 0
    | none =>
      match options.category with
      | some _ => objectsToGenerate.length == 0
      | none => false
  if emptySelection then { exitCode := 1, runLog := none }
  else if options.dryRun then { exitCode := 0, runLog := none }
  else if ¬hasApiKey then { exitCode := 1, runLog := none }
  else { exitCode := 0, runLog := some (illustrationLoop tryGen model objectsToGenerate) }

/-! ### Translation runner (`scripts/generate-word-translations.js`)

JS objects used as string-keyed maps are modelled as association lists in
insertion order; assignment updates an existing key in place and appends a
new key at the end, matching JS property-order semantics. -/

/-- Lookup of a key in a JS-object-like association list. -/
def getKey {α : Type} : List (String × α) → String → Option α
  | [], _ => none
  | (k', v') :: rest, k => if k' = k then some v' else getKey rest k

/-- JS property assignment `m[k] = v`. -/
def setKey {α : Type} : List (String × α) → String → α → List (String × α)
  | [], k, v => [(k, v)]
  | (k', v') :: rest, k, v =>
    if k' = k then (k, v) :: rest else (k', v') :: setKey rest k v

/-- JS truthiness of `m[k]` for a string-valued map (`undefined` and `''`
are falsy). -/
def jsTruthy (o : Option String) : Bool :=
  match o with
  | some v => v != ""
  | none => false

/-- `.trim()` on a string (whitespace stripped from both ends). -/
def jsTrim (s : String) : String := String.mk (trimChars s.data)

/-- A language record from `languages.json` (`slug`, display name). -/
structure Language where
  slug : String
  name : String
deriving DecidableEq, Repr

/-- A sticker record from `stickers.json` (`id`, English `label`). -/
structure Sticker where
  id : String
  label : String
deriving DecidableEq, Repr

/-- One word entry: language key → translated string. -/
abbrev WordEntry : Type := List (String × String)

/-- The `words` map: word id → word entry. -/
abbrev Words : Type := List (String × WordEntry)

/-- Value of `words[wordId]?.[key]`. -/
def wordVal (words : Words) (wordId key : String) : Option String :=
  match getKey words wordId with
  | some entry => getKey entry key
  | none => none

/-- An entry sent to the API: `{ id: wordId, english: words[wordId]?.en || wordId }`. -/
structure TEntry where
  id : String
  english : String
deriving DecidableEq, Repr

/-- A JSON value in the parsed API response: a string or something else. -/
inductive JsonVal where
  | str (s : String)
  | other
deriving DecidableEq, Repr

/-- The filtering loop of `translateLanguage` (`for (const entry of
entries)` over the accumulating `result` object): keep only ids answered
with a string whose trim is non-empty, storing the trimmed value. -/
def translateResultAux (translations : List (String × JsonVal)) :
    List (String × String) → List TEntry → List (String × String)
  | acc, [] => acc
  | acc, e :: rest =>
    match getKey translations e.id with
    | some (.str t) =>
      if jsTrim t ≠ "" then translateResultAux translations (setKey acc e.id (jsTrim t)) rest
      else translateResultAux translations acc rest
    | _ => translateResultAux translations acc rest

/-- The normalized result object returned by `translateLanguage`. -/
def translateResult (entries : List TEntry) (translations : List (String × JsonVal)) :
    List (String × String) :=
  translateResultAux translations [] entries

/-- `ensureEnglishWords(baseWords, stickers)`: create a missing entry and set
`entry.en = entry.en || sticker.label` for every sticker. -/
def ensureEnglishWords (words : Words) (stickers : List Sticker) : Words :=
  stickers.foldl
    (fun ws s =>
      let entry := (getKey ws s.id).getD []
      let en := jsOr ((getKey entry "en").getD "") s.label
      setKey ws s.id (setKey entry "en" en))
    words

/-- `words[wordId]?.en || wordId` — the English label used as the fallback
translation for a word. -/
def englishLabelOf (words : Words) (wordId : String) : String :=
  jsOr ((wordVal words wordId "en").getD "") wordId

/-- The `entriesToTranslate` computation for one language:
ids needing translation (`--overwrite` or missing/empty value), paired with
their English fallback. -/
def entriesToTranslate (overwrite : Bool) (words : Words) (langSlug : String)
    (targetWordIds : List String) : List TEntry :=
  (targetWordIds.filter
      (fun wid => overwrite || !(jsTruthy (wordVal words wid langSlug)))).map
    (fun wid => { id := wid, english := englishLabelOf words wid })

/-- The per-entry update loop of `main` for one language:
`if (!words[entry.id]) words[entry.id] = { en: entry.english };`
`words[entry.id][language.slug] = translated[entry.id] || entry.english;`. -/
def processEntries (translated : List (String × String)) (langSlug : String) :
    Words → List TEntry → Words
  | ws, [] => ws
  | ws, e :: rest =>
    let entry := (getKey ws e.id).getD [("en", e.english)]
    let value := jsOr ((getKey translated e.id).getD "") e.english
    processEntries translated langSlug (setKey ws e.id (setKey entry langSlug value)) rest

/-- Processing one target language end to end: compute the entries, call the
API once when any are missing, and fold the update loop.  Returns the new
`words` map and the number of API calls made (0 when the language is
skipped). -/
def processLanguage (overwrite : Bool) (api : Language → List TEntry → List (String × JsonVal))
    (targetWordIds : List String) (ws : Words) (language : Language) : Words × ℕ :=
  let entries := entriesToTranslate overwrite ws language.slug targetWordIds
  if entries.length = 0 then (ws, 0)
  else (processEntries (translateResult entries (api language entries)) language.slug ws entries, 1)

/-- The per-language loop of `main`, threading `words` and counting API calls. -/
def foldTargets (overwrite : Bool) (api : Language → List TEntry → List (String × JsonVal))
    (targetWordIds : List String) : Words × ℕ → List Language → Words × ℕ
  | acc, [] => acc
  | (ws, n), language :: rest =>
    let r := processLanguage overwrite api targetWordIds ws language
    foldTargets overwrite api targetWordIds (r.1, n + r.2) rest

/-- `(options.languages ? filter by slug : all).filter(slug !== 'en')`. -/
def targetLanguagesOf (languagesFilter : Option (List String))
    (allLanguages : List Language) : List Language :=
  let preFiltered : List Language :=
    match languagesFilter with
    | some ls => allLanguages.filter (fun l => ls.contains l.slug)
    | none => allLanguages
  preFiltered.filter (fun l => l.slug ≠ "en")

/-- `options.words ? stickers filtered by id : all sticker ids`. -/
def targetWordIdsOf (wordsFilter : Option (List String)) (stickers : List Sticker) :
    List String :=
  match wordsFilter with
  | some ws => (stickers.filter (fun s => ws.contains s.id)).map Sticker.id
  | none => stickers.map Sticker.id

/-- Lexicographic (code-unit) string comparison used to model
`Object.keys(entry).sort()`. -/
def lexLe : List Char → List Char → Bool
  | [], _ => true
  | _ :: _, [] => false
  | a :: as, b :: bs => if a < b then true else if a = b then lexLe as bs else false

/-- Insertion of a string into a sorted list. -/
def insertSorted (s : String) : List String → List String
  | [] => [s]
  | t :: ts => if lexLe s.data t.data then s :: t :: ts else t :: insertSorted s ts

/-- `Object.keys(entry).sort()`. -/
def sortKeys (l : List String) : List String := l.foldr insertSorted []

/-- `[...new Set(l)]`: deduplication keeping first occurrences. -/
def dedupAux (seen : List String) : List String → List String
  | [] => []
  | x :: xs => if x ∈ seen then dedupAux seen xs else x :: dedupAux (x :: seen) xs

def firstDedup (l : List String) : List String := dedupAux [] l

/-- Reordering of one word entry in `reorderWords`: copy the truthy values
of `languageOrder` first, then the remaining (sorted) keys whose slot is
still falsy. -/
def reorderEntry (languageOrder : List String) (entry : WordEntry) : WordEntry :=
  let phase1 := languageOrder.foldl
    (fun acc key => if jsTruthy (getKey entry key) then setKey acc key ((getKey entry key).getD "") else acc)
    []
  (sortKeys (entry.map Prod.fst)).foldl
    (fun acc key =>
      if jsTruthy (getKey acc key) then acc else setKey acc key ((getKey entry key).getD ""))
    phase1

/-- `reorderWords(words, stickers, languages)`. -/
def reorderWords (words : Words) (stickers : List Sticker) (languages : List Language) :
    Words :=
  let orderedWordIds := firstDedup (stickers.map Sticker.id ++ words.map Prod.fst)
  let languageOrder := "en" :: languages.map Language.slug
  orderedWordIds.foldl
    (fun acc wid => setKey acc wid (reorderEntry languageOrder ((getKey words wid).getD [])))
    []

/-- Options of the translation runner's `parseArgs`. -/
structure TransOptions where
  overwrite : Bool := false
  dryRun : Bool := false
  languages : Option (List String) := none
  words : Option (List String) := none

/-- The outcome of the translation runner's `main`: exit status, number of
API calls, and the `words` document written to disk (if any). -/
structure TransOutcome where
  exitCode : ℕ
  apiCalls : ℕ
  written : Option Words

/-- The translation runner's `main`: missing key → `process.exit(1)`;
empty target-language selection → print and return (exit 0, nothing done);
otherwise translate language by language and write the reordered document
(unless `--dry-run`). -/
def translationMain (options : TransOptions) (hasApiKey : Bool)
    (allLanguages : List Language) (stickers : List Sticker) (words0 : Words)
    (api : Language → List TEntry → List (String × JsonVal)) : TransOutcome :=
  if ¬hasApiKey then { exitCode := 1, apiCalls := 0, written := none }
  else
    let words := ensureEnglishWords words0 stickers
    let targetLanguages := targetLanguagesOf options.languages allLanguages
    let targetWordIds := targetWordIdsOf options.words stickers
    if targetLanguages.length = 0 then { exitCode := 0, apiCalls := 0, written := none }
    else
      let result := foldTargets options.overwrite api targetWordIds (words, 0) targetLanguages
      let output := reorderWords result.1 stickers allLanguages
      if options.dryRun then { exitCode := 0, apiCalls := result.2, written := none }
      else { exitCode := 0, apiCalls := result.2, written := some output }

/-! ### Concrete inputs used by the claim counterexamples and witnesses -/

/-- The C5 scenario: a catalog restricted to 3 categories and 2 language
pairs with `--max-jobs=4`. -/
def showcaseOptions5 : ShowcaseOptions :=
  { maxJobs := 4
    categories := some ["Animals", "Colors", "Family"]
    pairs := some [⟨"English", "Somali"⟩, ⟨"English", "Spanish"⟩] }

/-- The same catalog with `--max-jobs=7`, one past the 3 × 2 product. -/
def showcaseOptions7 : ShowcaseOptions := { showcaseOptions5 with maxJobs := 7 }

/-- An adapter oracle for which exactly one object (`cat`) succeeds and
every other object fails with a non-404 server error. -/
def partialTryGen : IllustrationObject → TryGen :=
  fun obj _model =>
    if obj.id = "cat" then .ok "aGVsbG8="
    else .error { status := some 500, message := "server error" }

/-- A showcase options record requesting a single job. -/
def oneJobOptions : ShowcaseOptions := { maxJobs := 1 }

/-- An edit oracle that always fails with a 500 error. -/
def failingEdit : Job → ApiCall :=
  fun _ => .error { status := some 500, message := "server error" }

/-- The concrete job of the single-job showcase catalog. -/
def oneJob : Job := mkJob ["Animals"] [⟨"English", "Somali"⟩] 0

/-- A primary oracle failing with a non-404 authentication error. -/
def authFailEdit : Job → ApiCall :=
  fun _ => .error { status := some 401, message := "Invalid authentication" }

/-- A fallback oracle that succeeds. -/
def okFallback : Job → ApiCall := fun _ => .ok (some "aGVsbG8=")

/-- Showcase options with `--allow-fallback` and a single job. -/
def allowFallbackOptions : ShowcaseOptions := { maxJobs := 1, allowFallback := true }

/-- Sample language/sticker data for the translation-runner claims. -/
def sampleLanguages : List Language := [⟨"en", "English"⟩, ⟨"so", "Somali"⟩]

def sampleStickers : List Sticker := [⟨"cat", "Cat"⟩]

/-- An API oracle whose response omits every requested word id. -/
def emptyApi : Language → List TEntry → List (String × JsonVal) := fun _ _ => []

/-- Translation-runner options whose language filter matches nothing. -/
def unmatchedLanguagesOptions : TransOptions := { languages := some ["zz"] }

/-- An edit oracle that always succeeds with a payload. -/
def successEdit : Job → ApiCall := fun _ => .ok (some "aGVsbG8=")

/-! ## Claims -/

/-- **C7**: both cost estimators are linear in the job count: doubling the
count doubles the nominal estimate, and each of `min`, `estimated`, `max`
is the count times a fixed per-unit rate.  Purity is inherent in the
embedding: both are closed functions of `n` alone. -/
theorem estimateCost_linear :
    ∀ n : ℕ,
      (estimateCost (2 * n)).estimated = 2 * (estimateCost n).estimated ∧
      (estimateCost n).estimated = n * 0.04 ∧
      (estimateCost n).min = n * 0.02 ∧
      (estimateCost n).max = n * 0.05 ∧
      (estimateCostShowcase (2 * n)).estimated = 2 * (estimateCostShowcase n).estimated ∧
      (estimateCostShowcase n).min = n * 0.03 ∧
      (estimateCostShowcase n).estimated = n * 0.05 ∧
      (estimateCostShowcase n).max = n * 0.08 := by
  intro n
  refine ⟨?_, rfl, rfl, rfl, ?_, rfl, rfl, rfl⟩ <;>
    · show ((2 * n : ℕ) : ℚ) * _ = 2 * (_ * _)
      push_cast
      ring

/-- **C8**: the prompt composer is a pure total function returning the
subject's descriptive text followed by the shared style guide appended
verbatim; on an empty descriptive text it still returns a valid non-empty
prompt (containing the style guide) and, being total, never throws. -/
theorem buildPrompt_spec :
    ∀ obj : IllustrationObject,
      buildPrompt obj = obj.prompt ++ ". " ++ STYLE_GUIDE ∧
      (∃ pre, buildPrompt obj = pre ++ STYLE_GUIDE) ∧
      buildPrompt { obj with prompt := "" } = ". " ++ STYLE_GUIDE ∧
      buildPrompt { obj with prompt := "" } ≠ "" := by
  intro obj
  refine ⟨rfl, ⟨obj.prompt ++ ". ", ?_⟩, rfl, ?_⟩
  · simp [buildPrompt, String.append_assoc]
  · rw [show buildPrompt { obj with prompt := "" } = ". " ++ STYLE_GUIDE from rfl]
    decide

/-- **C9**: for every integer `--max-jobs` value, the showcase catalog
builder returns exactly `max(1, maxJobs)` jobs; a request of 0 or a
negative count still yields one job, never an empty catalog. -/
theorem buildJobs_length :
    ∀ options : ShowcaseOptions,
      (buildJobs options).length = (max 1 options.maxJobs).toNat ∧
      0 < (buildJobs options).length := by
  intro o
  have h1 : (buildJobs o).length = (max 1 o.maxJobs).toNat := by
    simp [buildJobs]
  refine ⟨h1, ?_⟩
  rw [h1]
  have h2 : (1 : ℤ) ≤ max 1 o.maxJobs := le_max_left _ _
  omega

/-- **C5** (counterexample): with 3 categories × 2 pairs and `--max-jobs=4`
the builder does yield exactly 4 jobs, but the four (subject, target)
combinations are pairwise distinct — no combination appears more than once,
contrary to the claim. -/
theorem showcase_maxJobs4_distinct :
    (buildJobs showcaseOptions5).length = 4 ∧
    ((buildJobs showcaseOptions5).map (fun j => (j.category, j.pair))).Nodup := by
  decide

/-- **C5** (amended): 3 categories × 2 pairs with `--max-jobs=4` yields
exactly 4 pairwise-distinct (subject, target) combinations; the modular
wrap-around only repeats a combination once the requested count exceeds the
3 × 2 product, e.g. at `--max-jobs=7`. -/
theorem showcase_maxJobs_wraparound :
    (buildJobs showcaseOptions5).length = 4 ∧
    ((buildJobs showcaseOptions5).map (fun j => (j.category, j.pair))).Nodup ∧
    (buildJobs showcaseOptions7).length = 7 ∧
    ¬ ((buildJobs showcaseOptions7).map (fun j => (j.category, j.pair))).Nodup := by
  decide

/-- The 72 output paths of the configured showcase combination space are
pairwise distinct. -/
theorem comboPaths_nodup : (allShowcaseCombos.map comboPath).Nodup := by decide

/-- **C6**: the slug-based output-path function is injective over the
(target, subject) combination space of the configured category and
language-pair lists: distinct combinations get distinct paths. -/
theorem showcase_outputPath_injective :
    ∀ p1 ∈ DEFAULT_LANGUAGE_PAIRS, ∀ p2 ∈ DEFAULT_LANGUAGE_PAIRS,
    ∀ c1 ∈ CATEGORIES, ∀ c2 ∈ CATEGORIES,
      outputPath (pairSlugOf p1) (slugify c1) = outputPath (pairSlugOf p2) (slugify c2) →
      p1 = p2 ∧ c1 = c2 := by
  intro p1 hp1 p2 hp2 c1 hc1 c2 hc2 heq
  have h1 : (p1, c1) ∈ allShowcaseCombos :=
    List.mem_flatMap.mpr ⟨p1, hp1, List.mem_map.mpr ⟨c1, hc1, rfl⟩⟩
  have h2 : (p2, c2) ∈ allShowcaseCombos :=
    List.mem_flatMap.mpr ⟨p2, hp2, List.mem_map.mpr ⟨c2, hc2, rfl⟩⟩
  have h3 := List.inj_on_of_nodup_map comboPaths_nodup h1 h2 (by simpa [comboPath] using heq)
  exact ⟨congrArg Prod.fst h3, congrArg Prod.snd h3⟩

/-- Witness for **C6** at a concrete combination. -/
theorem showcase_outputPath_injective_witness :
    (⟨"English", "Somali"⟩ : LanguagePair) ∈ DEFAULT_LANGUAGE_PAIRS ∧
    "Animals" ∈ CATEGORIES ∧
    ((⟨"English", "Somali"⟩ : LanguagePair) = ⟨"English", "Somali"⟩ ∧
      "Animals" = "Animals") :=
  ⟨by decide, by decide,
    showcase_outputPath_injective _ (by decide) _ (by decide) _ (by decide) _ (by decide) rfl⟩

/-- **C2** (counterexample): a completed illustration-generator run with
`successCount = 1 > 0` and `failCount = 32 > 0` exits with status 0, not
the partial-failure code 2 — `main` never assigns `process.exitCode`. -/
theorem illustration_partial_failure_exits_zero :
    (illustrationMain {} true partialTryGen "gpt-image-1.5").runLog =
      some { successCount := 1, failCount := 32 } ∧
    (illustrationMain {} true partialTryGen "gpt-image-1.5").exitCode = 0 ∧
    (illustrationMain {} true partialTryGen "gpt-image-1.5").exitCode ≠ 2 := by
  decide

/-- **C2** (amended): a completed showcase run with at least one failure
exits with the distinguished code 2 (and with 0 when there is no failure),
while the illustration generator exits 0 after every completed run, even a
partially failed one. -/
theorem partial_failure_exit_codes :
    (∀ (options : ShowcaseOptions) (edit fallback : Job → ApiCall) (fs : List String),
        0 < (runShowcase options edit fallback fs).failures →
        showcaseExitCode (runShowcase options edit fallback fs) = 2) ∧
    (∀ run : ShowcaseRun, run.failures = 0 → showcaseExitCode run = 0) ∧
    (∀ (options : IllOptions) (hasApiKey : Bool) (tryGen : IllustrationObject → TryGen)
        (model : String),
        (illustrationMain options hasApiKey tryGen model).runLog.isSome →
        (illustrationMain options hasApiKey tryGen model).exitCode = 0) := by
  refine ⟨?_, ?_, ?_⟩
  · intro options edit fallback fs h
    simp [showcaseExitCode, h]
  · intro run h
    simp [showcaseExitCode, h]
  · intro options hasApiKey tryGen model
    simp only [illustrationMain]
    split
    · intro h; simp at h
    · split
      · intro h; simp at h
      · split
        · intro h; simp at h
        · intro _; rfl

/-- Witness for **C2** on concrete failing and partially-failing runs. -/
theorem partial_failure_exit_codes_witness :
    0 < (runShowcase oneJobOptions failingEdit failingEdit []).failures ∧
    showcaseExitCode (runShowcase oneJobOptions failingEdit failingEdit []) = 2 ∧
    (illustrationMain {} true partialTryGen "gpt-image-1.5").runLog.isSome ∧
    (illustrationMain {} true partialTryGen "gpt-image-1.5").exitCode = 0 :=
  ⟨by decide,
    partial_failure_exit_codes.1 oneJobOptions failingEdit failingEdit [] (by decide),
    by decide,
    partial_failure_exit_codes.2.2 {} true partialTryGen "gpt-image-1.5" (by decide)⟩

/-- **C3** (counterexample): in the showcase variant with `--allow-fallback`,
a primary failure with a 401 authentication error — not a 404-class signal —
still consumes the fallback attempt (the fallback oracle is invoked and its
result recorded), contradicting the claim that non-recoverable primary
failures never consume the fallback. -/
theorem showcase_fallback_on_auth_error :
    is404 { status := some 401, message := "Invalid authentication" } = false ∧
    (runJob allowFallbackOptions authFailEdit okFallback [] oneJob).fallbackCalls = 1 ∧
    (runJob allowFallbackOptions authFailEdit okFallback [] oneJob).item =
      some (generatedItem oneJob "generate-fallback" "gpt-image-1.5") := by
  decide

/-- **C3** (amended): in the illustration generator, a primary failure that
is not a 404-class error on a gpt-image-1.5 model fails the job immediately
with exactly one network call and no fallback attempt; in the showcase
variant, by contrast, the single fallback attempt is consumed on **any**
primary failure whenever `--allow-fallback` is set. -/
theorem fallback_consumption :
    (∀ (tryGen : TryGen) (model : String) (e : ApiError),
        tryGen model = .error e →
        ¬(is404 e = true ∧ isGptImage15 model = true) →
        generateIllustration tryGen model =
          ({ success := false, payload := none, error := some (formatIllError e) },
            [model])) ∧
    (∀ (options : ShowcaseOptions) (edit fallback : Job → ApiCall) (fs : List String)
        (job : Job) (e : ApiError),
        options.allowFallback = true →
        ¬(options.skipExisting ∧ job.outputPath ∈ fs) →
        edit job = .error e →
        (runJob options edit fallback fs job).fallbackCalls = 1) := by
  constructor
  · intro tryGen model e he hn
    have hcond : (is404 e && isGptImage15 model) = false := by
      cases h1 : is404 e <;> cases h2 : isGptImage15 model <;> simp_all
    simp [generateIllustration, he, hcond]
  · intro options edit fallback fs job e hf hskip he
    rw [runJob, if_neg hskip, he]
    simp only [hf]
    cases hfb : fallback job with
    | ok b64 => cases b64 <;> simp
    | error e2 => simp

/-- Witness for **C3**: the illustration adapter fails immediately on a 401,
and the showcase adapter consumes the fallback on the same 401. -/
theorem fallback_consumption_witness :
    generateIllustration (fun _ => .error { status := some 401, message := "Invalid authentication" })
        "gpt-image-1.5" =
      ({ success := false, payload := none,
         error := some (formatIllError { status := some 401, message := "Invalid authentication" }) },
       ["gpt-image-1.5"]) ∧
    (runJob allowFallbackOptions authFailEdit okFallback [] oneJob).fallbackCalls = 1 :=
  ⟨fallback_consumption.1 _ "gpt-image-1.5"
      { status := some 401, message := "Invalid authentication" } rfl (by decide),
    fallback_consumption.2 allowFallbackOptions authFailEdit okFallback [] oneJob
      { status := some 401, message := "Invalid authentication" } rfl (by decide) rfl⟩

/-- One loop iteration leaves the filesystem unchanged or adds exactly the
job's output path. -/
theorem runJob_fs_cases (options : ShowcaseOptions) (edit fallback : Job → ApiCall)
    (fs : List String) (job : Job) :
    (runJob options edit fallback fs job).fs = fs ∨
    (runJob options edit fallback fs job).fs = job.outputPath :: fs := by
  by_cases hskip : options.skipExisting ∧ job.outputPath ∈ fs
  · left; simp [runJob, hskip]
  · rcases he : edit job with e | b64
    · cases hf : options.allowFallback
      · left; simp [runJob, hskip, he, hf]
      · rcases hfb : fallback job with e2 | b64
        · left; simp [runJob, hskip, he, hf, hfb]
        · rcases b64 with _ | s
          · left; simp [runJob, hskip, he, hf, hfb]
          · right; simp [runJob, hskip, he, hf, hfb]
    · rcases b64 with _ | s
      · left; simp [runJob, hskip, he]
      · right; simp [runJob, hskip, he]

/-- The executor loop only ever adds files: existing paths stay present. -/
theorem runJobs_fs_mono (options : ShowcaseOptions) (edit fallback : Job → ApiCall) :
    ∀ (jobs : List Job) (fs : List String) (p : String),
      p ∈ fs → p ∈ (runJobs options edit fallback fs jobs).fs := by
  intro jobs
  induction jobs with
  | nil => intro fs p hp; simpa [runJobs] using hp
  | cons job rest ih =>
    intro fs p hp
    have hmem : p ∈ (runJob options edit fallback fs job).fs := by
      rcases runJob_fs_cases options edit fallback fs job with h | h <;> rw [h]
      · exact hp
      · exact List.mem_cons_of_mem _ hp
    simpa [runJobs] using ih _ p hmem

/-- A job that did not fail leaves its output path present on disk. -/
theorem runJob_success_mem (options : ShowcaseOptions) (edit fallback : Job → ApiCall)
    (fs : List String) (job : Job)
    (h : (runJob options edit fallback fs job).failed = false) :
    job.outputPath ∈ (runJob options edit fallback fs job).fs := by
  by_cases hskip : options.skipExisting ∧ job.outputPath ∈ fs
  · simpa [runJob, hskip] using hskip.2
  · rcases he : edit job with e | b64
    · cases hf : options.allowFallback
      · simp [runJob, hskip, he, hf] at h
      · rcases hfb : fallback job with e2 | b64
        · simp [runJob, hskip, he, hf, hfb] at h
        · rcases b64 with _ | s
          · simp [runJob, hskip, he, hf, hfb] at h
          · simp [runJob, hskip, he, hf, hfb]
    · rcases b64 with _ | s
      · simp [runJob, hskip, he] at h
      · simp [runJob, hskip, he]

/-- After a run with zero failures, every job's output path exists. -/
theorem runJobs_failures_zero_mem (options : ShowcaseOptions)
    (edit fallback : Job → ApiCall) :
    ∀ (jobs : List Job) (fs : List String),
      (runJobs options edit fallback fs jobs).failures = 0 →
      ∀ job ∈ jobs, job.outputPath ∈ (runJobs options edit fallback fs jobs).fs := by
  intro jobs
  induction jobs with
  | nil => intro fs _ job hj; simp at hj
  | cons job rest ih =>
    intro fs hfail job' hj'
    have hsplit : (runJob options edit fallback fs job).failed = false ∧
        (runJobs options edit fallback (runJob options edit fallback fs job).fs rest).failures = 0 := by
      by_cases hf : (runJob options edit fallback fs job).failed
      · exfalso; simp [runJobs, hf] at hfail
      · simp only [Bool.not_eq_true] at hf
        refine ⟨hf, ?_⟩
        simpa [runJobs, hf] using hfail
    rcases List.mem_cons.mp hj' with rfl | hmem
    · have h1 := runJob_success_mem options edit fallback fs job' hsplit.1
      simpa [runJobs] using runJobs_fs_mono options edit fallback rest _ _ h1
    · simpa [runJobs] using ih _ hsplit.2 job' hmem

/-- With skip-existing enabled and the output already present, one iteration
is a pure skip: manifest entry `existing`, no failure, no network call, no
write. -/
theorem runJob_skip (options : ShowcaseOptions) (edit fallback : Job → ApiCall)
    (fs : List String) (job : Job) (hskip : options.skipExisting = true)
    (hmem : job.outputPath ∈ fs) :
    runJob options edit fallback fs job =
      { item := some (existingItem job), failed := false, editCalls := 0,
        fallbackCalls := 0, fs := fs } := by
  simp [runJob, hskip, hmem]

/-- With skip-existing enabled and every output already present, the whole
run is a pure skip: the manifest is exactly the catalog mapped to
`existing` entries, with zero failures, zero network calls and an unchanged
filesystem. -/
theorem runJobs_all_existing (options : ShowcaseOptions)
    (edit fallback : Job → ApiCall) (hskip : options.skipExisting = true) :
    ∀ (jobs : List Job) (fs : List String),
      (∀ job ∈ jobs, job.outputPath ∈ fs) →
      runJobs options edit fallback fs jobs =
        { manifestItems := jobs.map existingItem, failures := 0, editCalls := 0,
          fallbackCalls := 0, fs := fs } := by
  intro jobs
  induction jobs with
  | nil => intro fs _; simp [runJobs]
  | cons job rest ih =>
    intro fs hmem
    have h1 := runJob_skip options edit fallback fs job hskip (hmem job (by simp))
    have h2 := ih fs (fun j hj => hmem j (List.mem_cons_of_mem _ hj))
    simp [runJobs, h1, h2]

/-- A job that did not fail records a manifest item carrying the job's id. -/
theorem runJob_item_id (options : ShowcaseOptions) (edit fallback : Job → ApiCall)
    (fs : List String) (job : Job)
    (h : (runJob options edit fallback fs job).failed = false) :
    ∃ it, (runJob options edit fallback fs job).item = some it ∧
      it.id = job.pairSlug ++ "-" ++ job.categorySlug := by
  by_cases hskip : options.skipExisting ∧ job.outputPath ∈ fs
  · exact ⟨existingItem job, by simp [runJob, hskip], rfl⟩
  · rcases he : edit job with e | b64
    · cases hf : options.allowFallback
      · simp [runJob, hskip, he, hf] at h
      · rcases hfb : fallback job with e2 | b64
        · simp [runJob, hskip, he, hf, hfb] at h
        · rcases b64 with _ | s
          · simp [runJob, hskip, he, hf, hfb] at h
          · exact ⟨generatedItem job "generate-fallback" options.fallbackModel,
              by simp [runJob, hskip, he, hf, hfb], rfl⟩
    · rcases b64 with _ | s
      · simp [runJob, hskip, he] at h
      · exact ⟨generatedItem job "edit" options.editModel, by simp [runJob, hskip, he], rfl⟩

/-- A run with zero failures produces exactly one manifest item per job, in
catalog order, identified by the job's id. -/
theorem runJobs_ids (options : ShowcaseOptions) (edit fallback : Job → ApiCall) :
    ∀ (jobs : List Job) (fs : List String),
      (runJobs options edit fallback fs jobs).failures = 0 →
      (runJobs options edit fallback fs jobs).manifestItems.map ManifestItem.id
        = jobs.map (fun j => j.pairSlug ++ "-" ++ j.categorySlug) := by
  intro jobs
  induction jobs with
  | nil => intro fs _; simp [runJobs]
  | cons job rest ih =>
    intro fs hfail
    have hsplit : (runJob options edit fallback fs job).failed = false ∧
        (runJobs options edit fallback (runJob options edit fallback fs job).fs rest).failures = 0 := by
      by_cases hf : (runJob options edit fallback fs job).failed
      · exfalso; simp [runJobs, hf] at hfail
      · simp only [Bool.not_eq_true] at hf
        refine ⟨hf, ?_⟩
        simpa [runJobs, hf] using hfail
    obtain ⟨it, hit, hid⟩ := runJob_item_id options edit fallback fs job hsplit.1
    have h2 := ih _ hsplit.2
    simp [runJobs, hit, hid, h2]

/-- **C1** (amended): after a fully successful first run, a second run with
skip-existing enabled and identical inputs performs zero network calls,
fails nothing, writes nothing, and transitions every job to SKIPPED with
method `existing`; its manifest lists the same job ids as the first run's
manifest, but records method `existing` and model null rather than
reproducing the first run's manifest verbatim. -/
theorem skip_existing_idempotent :
    ∀ (options : ShowcaseOptions) (edit fallback : Job → ApiCall) (fs0 : List String),
      options.skipExisting = true →
      (runShowcase options edit fallback fs0).failures = 0 →
      runShowcase options edit fallback (runShowcase options edit fallback fs0).fs =
        { manifestItems := (buildJobs options).map existingItem
          failures := 0
          editCalls := 0
          fallbackCalls := 0
          fs := (runShowcase options edit fallback fs0).fs } ∧
      (runShowcase options edit fallback
            (runShowcase options edit fallback fs0).fs).manifestItems.map ManifestItem.id
        = (runShowcase options edit fallback fs0).manifestItems.map ManifestItem.id := by
  intro options edit fallback fs0 hskip hfail
  have hmem : ∀ job ∈ buildJobs options,
      job.outputPath ∈ (runShowcase options edit fallback fs0).fs :=
    runJobs_failures_zero_mem options edit fallback (buildJobs options) fs0 hfail
  have h2 := runJobs_all_existing options edit fallback hskip (buildJobs options)
    (runShowcase options edit fallback fs0).fs hmem
  refine ⟨h2, ?_⟩
  have h3 : (runShowcase options edit fallback fs0).manifestItems.map ManifestItem.id
      = (buildJobs options).map (fun j => j.pairSlug ++ "-" ++ j.categorySlug) :=
    runJobs_ids options edit fallback (buildJobs options) fs0 hfail
  show (runJobs options edit fallback (runShowcase options edit fallback fs0).fs
      (buildJobs options)).manifestItems.map ManifestItem.id = _
  rw [h2]
  refine Eq.trans ?_ h3.symm
  show ((buildJobs options).map existingItem).map ManifestItem.id
      = (buildJobs options).map (fun j => j.pairSlug ++ "-" ++ j.categorySlug)
  simp [existingItem, List.map_map, Function.comp]

/-- **C1** (counterexample): for a one-job catalog whose first run succeeds,
the second run's manifest is **not** identical to the first run's: the first
records method `edit` with the model, the second records method `existing`
with model null. -/
theorem second_run_manifest_differs :
    (runShowcase oneJobOptions successEdit successEdit []).failures = 0 ∧
    (runShowcase oneJobOptions successEdit successEdit []).manifestItems.map
        ManifestItem.method = ["edit"] ∧
    (runShowcase oneJobOptions successEdit successEdit
        (runShowcase oneJobOptions successEdit successEdit []).fs).manifestItems.map
        ManifestItem.method = ["existing"] ∧
    (runShowcase oneJobOptions successEdit successEdit
        (runShowcase oneJobOptions successEdit successEdit []).fs).manifestItems ≠
      (runShowcase oneJobOptions successEdit successEdit []).manifestItems := by
  decide

/-- Witness for **C1** on the concrete one-job catalog. -/
theorem skip_existing_idempotent_witness :
    oneJobOptions.skipExisting = true ∧
    (runShowcase oneJobOptions successEdit successEdit []).failures = 0 ∧
    (runShowcase oneJobOptions successEdit successEdit
        (runShowcase oneJobOptions successEdit successEdit []).fs =
      { manifestItems := (buildJobs oneJobOptions).map existingItem
        failures := 0
        editCalls := 0
        fallbackCalls := 0
        fs := (runShowcase oneJobOptions successEdit successEdit []).fs } ∧
      (runShowcase oneJobOptions successEdit successEdit
          (runShowcase oneJobOptions successEdit successEdit []).fs).manifestItems.map
          ManifestItem.id
        = (runShowcase oneJobOptions successEdit successEdit []).manifestItems.map
          ManifestItem.id) :=
  ⟨rfl, by decide,
    skip_existing_idempotent oneJobOptions successEdit successEdit [] rfl (by decide)⟩

/-- **C4** (counterexample): the translation runner, given a `--languages`
filter matching zero languages, returns success — exit status 0, zero API
calls, nothing written — instead of terminating with a non-zero exit
status. -/
theorem translation_empty_filter_exits_zero :
    (targetLanguagesOf (some ["zz"]) sampleLanguages).length = 0 ∧
    (translationMain unmatchedLanguagesOptions true sampleLanguages sampleStickers []
        emptyApi).exitCode = 0 ∧
    (translationMain unmatchedLanguagesOptions true sampleLanguages sampleStickers []
        emptyApi).apiCalls = 0 ∧
    (translationMain unmatchedLanguagesOptions true sampleLanguages sampleStickers []
        emptyApi).written = none := by
  decide

/-- **C4** (amended): the illustration generator exits 1 with no run when
`--only` or `--category` matches zero objects; the translation runner,
however, returns exit status 0 (performing no API calls and writing
nothing) when the language filter matches zero languages. -/
theorem empty_filter_behaviour :
    (∀ (options : IllOptions) (hasApiKey : Bool) (tryGen : IllustrationObject → TryGen)
        (model : String) (ids : List String),
        options.only = some ids →
        (OBJECTS.filter (fun obj => ids.contains obj.id)).length = 0 →
        illustrationMain options hasApiKey tryGen model = { exitCode := 1, runLog := none }) ∧
    (∀ (options : IllOptions) (hasApiKey : Bool) (tryGen : IllustrationObject → TryGen)
        (model : String) (c : String),
        options.only = none → options.category = some c →
        (getObjectsByCategory c).length = 0 →
        illustrationMain options hasApiKey tryGen model = { exitCode := 1, runLog := none }) ∧
    (∀ (options : TransOptions) (allLanguages : List Language) (stickers : List Sticker)
        (words0 : Words) (api : Language → List TEntry → List (String × JsonVal)),
        (targetLanguagesOf options.languages allLanguages).length = 0 →
        translationMain options true allLanguages stickers words0 api =
          { exitCode := 0, apiCalls := 0, written := none }) := by
  refine ⟨?_, ?_, ?_⟩
  · intro options hasApiKey tryGen model ids ho h
    have hlen : ((OBJECTS.filter (fun obj => ids.contains obj.id)).length == 0) = true := by
      rw [h]; rfl
    simp only [illustrationMain, ho, hlen]
    rfl
  · intro options hasApiKey tryGen model c ho hc h
    have hlen : ((getObjectsByCategory c).length == 0) = true := by
      rw [h]; rfl
    simp only [illustrationMain, ho, hc, hlen]
    rfl
  · intro options allLanguages stickers words0 api h
    simp [translationMain, h]

/-- Witness for **C4** on concrete empty filters. -/
theorem empty_filter_behaviour_witness :
    ({ only := some ["nope"] } : IllOptions).only = some ["nope"] ∧
    (OBJECTS.filter (fun obj => (["nope"] : List String).contains obj.id)).length = 0 ∧
    illustrationMain { only := some ["nope"] } true partialTryGen "gpt-image-1.5" =
      { exitCode := 1, runLog := none } ∧
    (getObjectsByCategory "vehicles").length = 0 ∧
    illustrationMain { category := some "vehicles" } true partialTryGen "gpt-image-1.5" =
      { exitCode := 1, runLog := none } ∧
    translationMain unmatchedLanguagesOptions true sampleLanguages sampleStickers [] emptyApi =
      { exitCode := 0, apiCalls := 0, written := none } :=
  ⟨rfl, by decide,
    empty_filter_behaviour.1 _ true partialTryGen "gpt-image-1.5" ["nope"] rfl (by decide),
    by decide,
    empty_filter_behaviour.2.1 _ true partialTryGen "gpt-image-1.5" "vehicles" rfl rfl (by decide),
    empty_filter_behaviour.2.2 unmatchedLanguagesOptions sampleLanguages sampleStickers []
      emptyApi (by decide)⟩

/-! ### Association-list and truthiness lemmas for the translation runner -/

theorem getKey_setKey_self {α : Type} (m : List (String × α)) (k : String) (v : α) :
    getKey (setKey m k v) k = some v := by
  induction m with
  | nil => simp [setKey, getKey]
  | cons p rest ih =>
    by_cases h : p.1 = k
    · simp [setKey, h, getKey]
    · simp [setKey, h, getKey, ih]

theorem getKey_setKey_ne {α : Type} (m : List (String × α)) (k : String) (v : α)
    (k' : String) (h : k ≠ k') : getKey (setKey m k v) k' = getKey m k' := by
  induction m with
  | nil => simp [setKey, getKey, h]
  | cons p rest ih =>
    by_cases hp : p.1 = k
    · simp [setKey, hp, getKey, h]
    · simp [setKey, hp, getKey, ih]

/-- `a || b` with a non-empty right operand is non-empty. -/
theorem jsOr_ne (a b : String) (hb : b ≠ "") : jsOr a b ≠ "" := by
  unfold jsOr
  split <;> simp_all

/-- A truthy optional string is a present non-empty string. -/
theorem jsTruthy_iff (o : Option String) :
    jsTruthy o = true ↔ ∃ v, o = some v ∧ v ≠ "" := by
  cases o <;> simp [jsTruthy]

/-- Every value stored by the `translateLanguage` filtering loop is
non-empty. -/
theorem translateResultAux_ne (translations : List (String × JsonVal)) :
    ∀ (entries : List TEntry) (acc : List (String × String)),
      (∀ k v, getKey acc k = some v → v ≠ "") →
      ∀ k v, getKey (translateResultAux translations acc entries) k = some v → v ≠ "" := by
  intro entries
  induction entries with
  | nil => intro acc hacc k v h; exact hacc k v h
  | cons e rest ih =>
    intro acc hacc k v h
    rcases hg : getKey translations e.id with _ | jv
    · exact ih acc hacc k v (by simpa [translateResultAux, hg] using h)
    · rcases jv with t | _
      · by_cases ht : jsTrim t ≠ ""
        · refine ih (setKey acc e.id (jsTrim t)) ?_ k v
            (by simpa [translateResultAux, hg, ht] using h)
          intro k' v' h'
          by_cases hk : e.id = k'
          · subst hk
            rw [getKey_setKey_self] at h'
            cases h'
            exact ht
          · rw [getKey_setKey_ne _ _ _ _ hk] at h'
            exact hacc k' v' h'
        · exact ih acc hacc k v (by simpa [translateResultAux, hg, ht] using h)
      · exact ih acc hacc k v (by simpa [translateResultAux, hg] using h)

theorem translateResult_ne (entries : List TEntry) (translations : List (String × JsonVal))
    (k : String) (v : String) (h : getKey (translateResult entries translations) k = some v) :
    v ≠ "" :=
  translateResultAux_ne translations entries [] (by simp [getKey]) k v h

/-- The update loop leaves words outside the entry list untouched. -/
theorem processEntries_not_mem (translated : List (String × String)) (langSlug : String) :
    ∀ (entries : List TEntry) (ws : Words) (wid : String),
      wid ∉ entries.map TEntry.id →
      getKey (processEntries translated langSlug ws entries) wid = getKey ws wid := by
  intro entries
  induction entries with
  | nil => intro ws wid _; rfl
  | cons e rest ih =>
    intro ws wid hw
    have hne : e.id ≠ wid := fun h => hw (by simp [h])
    have hrest : wid ∉ rest.map TEntry.id := fun h => hw (by simp [h])
    rw [processEntries, ih _ _ hrest, getKey_setKey_ne _ _ _ _ hne]

/-- The update loop preserves every key other than the processed language in
an existing word entry. -/
theorem processEntries_preserve (translated : List (String × String)) (langSlug : String) :
    ∀ (entries : List TEntry) (ws : Words) (wid : String) (ent : WordEntry),
      getKey ws wid = some ent →
      ∃ ent', getKey (processEntries translated langSlug ws entries) wid = some ent' ∧
        ∀ K, K ≠ langSlug → getKey ent' K = getKey ent K := by
  intro entries
  induction entries with
  | nil => intro ws wid ent h; exact ⟨ent, h, fun _ _ => rfl⟩
  | cons e rest ih =>
    intro ws wid ent h
    by_cases hw : e.id = wid
    · subst hw
      have hnew : getKey
          (setKey ws e.id (setKey ((getKey ws e.id).getD [("en", e.english)]) langSlug
            (jsOr ((getKey translated e.id).getD "") e.english))) e.id =
          some (setKey ((getKey ws e.id).getD [("en", e.english)]) langSlug
            (jsOr ((getKey translated e.id).getD "") e.english)) :=
        getKey_setKey_self _ _ _
      obtain ⟨ent', h1, h2⟩ := ih _ e.id _ hnew
      refine ⟨ent', h1, ?_⟩
      intro K hK
      rw [h2 K hK, getKey_setKey_ne _ _ _ _ (Ne.symm hK), h]
      rfl
    · refine ih _ wid ent ?_
      rw [getKey_setKey_ne _ _ _ _ hw]
      exact h

/-- After the update loop, a word that appears in the entry list carries the
API translation when one was usable and the entry's English fallback
otherwise. -/
theorem processEntries_value (translated : List (String × String)) (langSlug : String)
    (E : String → String) :
    ∀ (entries : List TEntry) (ws : Words) (wid : String),
      (∀ e ∈ entries, e.english = E e.id) →
      wid ∈ entries.map TEntry.id →
      wordVal (processEntries translated langSlug ws entries) wid langSlug =
        some (jsOr ((getKey translated wid).getD "") (E wid)) := by
  intro entries
  induction entries with
  | nil => intro ws wid _ hw; simp at hw
  | cons e rest ih =>
    intro ws wid hE hw
    by_cases hr : wid ∈ rest.map TEntry.id
    · rw [processEntries]
      exact ih _ wid (fun e' he' => hE e' (List.mem_cons_of_mem _ he')) hr
    · have hwid : e.id = wid := by
        rcases List.mem_map.mp hw with ⟨e', he', hid⟩
        rcases List.mem_cons.mp he' with rfl | hmem
        · exact hid
        · exact absurd (hid ▸ List.mem_map_of_mem TEntry.id hmem) hr
      subst hwid
      have h1 : getKey (processEntries translated langSlug ws (e :: rest)) e.id
          = some (setKey ((getKey ws e.id).getD [("en", e.english)]) langSlug
              (jsOr ((getKey translated e.id).getD "") e.english)) := by
        have h2 := processEntries_not_mem translated langSlug rest
          (setKey ws e.id (setKey ((getKey ws e.id).getD [("en", e.english)]) langSlug
            (jsOr ((getKey translated e.id).getD "") e.english))) e.id hr
        calc getKey (processEntries translated langSlug ws (e :: rest)) e.id
            = getKey (processEntries translated langSlug
                (setKey ws e.id (setKey ((getKey ws e.id).getD [("en", e.english)]) langSlug
                  (jsOr ((getKey translated e.id).getD "") e.english))) rest) e.id := rfl
          _ = _ := by rw [h2]; exact getKey_setKey_self _ _ _
      simp only [wordVal, h1]
      rw [getKey_setKey_self, hE e (by simp)]

/-- The ids of the computed entries are exactly the targeted ids that need
translation. -/
theorem entriesToTranslate_map_id (overwrite : Bool) (ws : Words) (langSlug : String)
    (targetWordIds : List String) :
    (entriesToTranslate overwrite ws langSlug targetWordIds).map TEntry.id =
      targetWordIds.filter
        (fun wid => overwrite || !(jsTruthy (wordVal ws wid langSlug))) := by
  unfold entriesToTranslate
  generalize targetWordIds.filter
      (fun wid => overwrite || !(jsTruthy (wordVal ws wid langSlug))) = l
  induction l with
  | nil => rfl
  | cons x xs ih => simp [ih]

/-- Each computed entry carries the English label of its word id. -/
theorem entriesToTranslate_english (overwrite : Bool) (ws : Words) (langSlug : String)
    (targetWordIds : List String) (e : TEntry)
    (he : e ∈ entriesToTranslate overwrite ws langSlug targetWordIds) :
    e.english = englishLabelOf ws e.id := by
  rcases List.mem_map.mp he with ⟨wid, _, rfl⟩
  rfl

/-- After processing one language, every targeted word id is mapped to a
non-empty string; when the API response contained nothing usable for the
id, the stored value is the word's English label. -/
theorem processLanguage_spec (overwrite : Bool)
    (api : Language → List TEntry → List (String × JsonVal))
    (targetWordIds : List String) (ws : Words) (L : Language) (wid : String)
    (hid : wid ∈ targetWordIds) (hne : wid ≠ "") :
    ∃ v, wordVal (processLanguage overwrite api targetWordIds ws L).1 wid L.slug = some v ∧
      v ≠ "" ∧
      ((wid ∈ (entriesToTranslate overwrite ws L.slug targetWordIds).map TEntry.id ∧
        getKey (translateResult (entriesToTranslate overwrite ws L.slug targetWordIds)
          (api L (entriesToTranslate overwrite ws L.slug targetWordIds))) wid = none) →
        v = englishLabelOf ws wid) := by
  by_cases hm : wid ∈ (entriesToTranslate overwrite ws L.slug targetWordIds).map TEntry.id
  · have hlen : ¬ (entriesToTranslate overwrite ws L.slug targetWordIds).length = 0 := by
      intro h0
      rw [List.length_eq_zero] at h0
      simp [h0] at hm
    have hval := processEntries_value
      (translateResult (entriesToTranslate overwrite ws L.slug targetWordIds)
        (api L (entriesToTranslate overwrite ws L.slug targetWordIds)))
      L.slug (englishLabelOf ws)
      (entriesToTranslate overwrite ws L.slug targetWordIds) ws wid
      (fun e he => entriesToTranslate_english overwrite ws L.slug targetWordIds e he) hm
    have hstep : (processLanguage overwrite api targetWordIds ws L).1 =
        processEntries
          (translateResult (entriesToTranslate overwrite ws L.slug targetWordIds)
            (api L (entriesToTranslate overwrite ws L.slug targetWordIds)))
          L.slug ws (entriesToTranslate overwrite ws L.slug targetWordIds) := by
      simp [processLanguage, hlen]
    rw [hstep, hval]
    have hE : englishLabelOf ws wid ≠ "" := jsOr_ne _ _ hne
    rcases htv : getKey (translateResult (entriesToTranslate overwrite ws L.slug targetWordIds)
        (api L (entriesToTranslate overwrite ws L.slug targetWordIds))) wid with _ | t
    · refine ⟨englishLabelOf ws wid, ?_, hE, fun _ => rfl⟩
      simp [jsOr]
    · have ht : t ≠ "" := translateResult_ne _ _ wid t htv
      refine ⟨t, ?_, ht, ?_⟩
      · simp [jsOr, ht]
      · rintro ⟨_, hnone⟩
        cases hnone
  · have hcond : ¬ (overwrite || !(jsTruthy (wordVal ws wid L.slug))) = true := by
      intro hc
      exact hm (by
        rw [entriesToTranslate_map_id]
        exact List.mem_filter.mpr ⟨hid, hc⟩)
    have htruthy : jsTruthy (wordVal ws wid L.slug) = true := by
      by_contra hft
      rw [Bool.not_eq_true] at hft
      exact hcond (by simp [hft])
    obtain ⟨v, hv, hvne⟩ := (jsTruthy_iff _).mp htruthy
    refine ⟨v, ?_, hvne, fun hcontra => absurd hcontra.1 hm⟩
    by_cases hlen : (entriesToTranslate overwrite ws L.slug targetWordIds).length = 0
    · simp [processLanguage, hlen]
      exact hv
    · have hstep : (processLanguage overwrite api targetWordIds ws L).1 =
          processEntries
            (translateResult (entriesToTranslate overwrite ws L.slug targetWordIds)
              (api L (entriesToTranslate overwrite ws L.slug targetWordIds)))
            L.slug ws (entriesToTranslate overwrite ws L.slug targetWordIds) := by
        simp [processLanguage, hlen]
      rw [hstep, wordVal, processEntries_not_mem _ _ _ _ _ hm]
      exact hv

/-- Processing one language preserves every stored value at a different
language key. -/
theorem processLanguage_preserve (overwrite : Bool)
    (api : Language → List TEntry → List (String × JsonVal))
    (targetWordIds : List String) (ws : Words) (L : Language) (wid K : String)
    (hK : K ≠ L.slug) (v : String) (h : wordVal ws wid K = some v) :
    wordVal (processLanguage overwrite api targetWordIds ws L).1 wid K = some v := by
  have hent : ∃ ent, getKey ws wid = some ent ∧ getKey ent K = some v := by
    unfold wordVal at h
    rcases hg : getKey ws wid with _ | ent
    · rw [hg] at h; cases h
    · rw [hg] at h; exact ⟨ent, rfl, h⟩
  obtain ⟨ent, hent1, hent2⟩ := hent
  by_cases hlen : (entriesToTranslate overwrite ws L.slug targetWordIds).length = 0
  · simpa [processLanguage, hlen] using h
  · have hstep : (processLanguage overwrite api targetWordIds ws L).1 =
        processEntries
          (translateResult (entriesToTranslate overwrite ws L.slug targetWordIds)
            (api L (entriesToTranslate overwrite ws L.slug targetWordIds)))
          L.slug ws (entriesToTranslate overwrite ws L.slug targetWordIds) := by
      simp [processLanguage, hlen]
    obtain ⟨ent', h1, h2⟩ := processEntries_preserve
      (translateResult (entriesToTranslate overwrite ws L.slug targetWordIds)
        (api L (entriesToTranslate overwrite ws L.slug targetWordIds)))
      L.slug (entriesToTranslate overwrite ws L.slug targetWordIds) ws wid ent hent1
    rw [hstep]
    simp only [wordVal, h1]
    rw [h2 K hK, hent2]

/-- The per-language fold preserves a stored value whose key is the slug of
no processed language. -/
theorem foldTargets_preserve (overwrite : Bool)
    (api : Language → List TEntry → List (String × JsonVal))
    (targetWordIds : List String) :
    ∀ (targets : List Language) (ws : Words) (n : ℕ) (wid K : String) (v : String),
      (∀ L ∈ targets, K ≠ L.slug) →
      wordVal ws wid K = some v →
      wordVal (foldTargets overwrite api targetWordIds (ws, n) targets).1 wid K = some v := by
  intro targets
  induction targets with
  | nil => intro ws n wid K v _ h; exact h
  | cons L rest ih =>
    intro ws n wid K v hK h
    have h1 := processLanguage_preserve overwrite api targetWordIds ws L wid K
      (hK L (by simp)) v h
    exact ih _ _ wid K v (fun M hM => hK M (List.mem_cons_of_mem _ hM)) h1

/-- After the per-language fold, every targeted word id is mapped to a
non-empty string for every processed language. -/
theorem foldTargets_establish (overwrite : Bool)
    (api : Language → List TEntry → List (String × JsonVal))
    (targetWordIds : List String) :
    ∀ (targets : List Language) (ws : Words) (n : ℕ),
      (targets.map Language.slug).Nodup →
      ∀ L ∈ targets, ∀ wid ∈ targetWordIds, wid ≠ "" →
      ∃ v, wordVal (foldTargets overwrite api targetWordIds (ws, n) targets).1 wid L.slug
          = some v ∧ v ≠ "" := by
  intro targets
  induction targets with
  | nil => intro ws n _ L hL; simp at hL
  | cons M rest ih =>
    intro ws n hnodup L hL wid hwid hne
    have hnodup' := hnodup
    rw [List.map_cons, List.nodup_cons] at hnodup'
    rcases List.mem_cons.mp hL with rfl | hmem
    · obtain ⟨v, hv, hvne, _⟩ :=
        processLanguage_spec overwrite api targetWordIds ws L wid hwid hne
      refine ⟨v, ?_, hvne⟩
      have hK : ∀ N ∈ rest, L.slug ≠ N.slug := by
        intro N hN hEq
        exact hnodup'.1 (hEq ▸ List.mem_map_of_mem Language.slug hN)
      exact foldTargets_preserve overwrite api targetWordIds rest _ _ wid L.slug v hK hv
    · exact ih _ _ hnodup'.2 L hmem wid hwid hne

/-- Folding `setKey` of a per-id value over an id list: ids outside the list
keep their binding. -/
theorem getKey_foldl_setKey_not_mem (f : String → WordEntry) :
    ∀ (l : List String) (acc : Words) (wid : String), wid ∉ l →
      getKey (l.foldl (fun a w => setKey a w (f w)) acc) wid = getKey acc wid := by
  intro l
  induction l with
  | nil => intro acc wid _; rfl
  | cons w rest ih =>
    intro acc wid hw
    have h1 : wid ≠ w := fun h => hw (by simp [h])
    have h2 : wid ∉ rest := fun h => hw (by simp [h])
    rw [List.foldl_cons, ih _ wid h2, getKey_setKey_ne _ _ _ _ (Ne.symm h1)]

/-- Folding `setKey` of a per-id value over an id list: every listed id is
bound to its value. -/
theorem getKey_foldl_setKey_mem (f : String → WordEntry) :
    ∀ (l : List String) (acc : Words) (wid : String), wid ∈ l →
      getKey (l.foldl (fun a w => setKey a w (f w)) acc) wid = some (f wid) := by
  intro l
  induction l with
  | nil => intro acc wid hw; simp at hw
  | cons w rest ih =>
    intro acc wid hw
    by_cases hr : wid ∈ rest
    · rw [List.foldl_cons, ih _ wid hr]
    · have hww : wid = w := by
        rcases List.mem_cons.mp hw with h | h
        · exact h
        · exact absurd h hr
      subst hww
      rw [List.foldl_cons, getKey_foldl_setKey_not_mem f rest _ wid hr, getKey_setKey_self]

/-- `[...new Set(l)]` keeps every element of `l` not already seen. -/
theorem mem_dedupAux :
    ∀ (l : List String) (seen : List String) (x : String),
      x ∈ l → x ∉ seen → x ∈ dedupAux seen l := by
  intro l
  induction l with
  | nil => intro seen x hx _; simp at hx
  | cons y rest ih =>
    intro seen x hx hseen
    rcases List.mem_cons.mp hx with rfl | hmem
    · by_cases hy : x ∈ seen
      · exact absurd hy hseen
      · simp only [dedupAux, if_neg hy]
        exact List.mem_cons_self _ _
    · by_cases hy : y ∈ seen
      · simp only [dedupAux, if_pos hy]
        exact ih seen x hmem hseen
      · simp only [dedupAux, if_neg hy]
        by_cases hxy : x = y
        · exact hxy ▸ List.mem_cons_self _ _
        · refine List.mem_cons_of_mem _ (ih _ x hmem ?_)
          intro hx'
          rcases List.mem_cons.mp hx' with h | h
          · exact hxy h
          · exact hseen h

/-- Phase 1 of `reorderEntry` binds a truthy entry value at every key of the
language order. -/
theorem reorderEntry_phase1 (entry : WordEntry) (K : String) (v : String)
    (hvK : getKey entry K = some v) (hv : v ≠ "") :
    ∀ (order : List String) (acc : WordEntry),
      (K ∈ order ∨ getKey acc K = some v) →
      getKey (order.foldl
        (fun acc key => if jsTruthy (getKey entry key) then
          setKey acc key ((getKey entry key).getD "") else acc) acc) K = some v := by
  intro order
  induction order with
  | nil =>
    intro acc h
    rcases h with h | h
    · simp at h
    · exact h
  | cons key rest ih =>
    intro acc h
    rw [List.foldl_cons]
    by_cases hkK : key = K
    · subst hkK
      rw [hvK]
      have htruthy : jsTruthy (some v) = true := by simp [jsTruthy, hv]
      rw [if_pos htruthy]
      refine ih _ (Or.inr ?_)
      rw [getKey_setKey_self]
      rfl
    · rcases h with h | h
      · rcases List.mem_cons.mp h with h' | h'
        · exact absurd h'.symm hkK
        · by_cases ht : jsTruthy (getKey entry key) = true
          · rw [if_pos ht]; exact ih _ (Or.inl h')
          · rw [if_neg ht]; exact ih _ (Or.inl h')
      · by_cases ht : jsTruthy (getKey entry key) = true
        · rw [if_pos ht]
          refine ih _ (Or.inr ?_)
          rw [getKey_setKey_ne _ _ _ _ hkK]
          exact h
        · rw [if_neg ht]; exact ih _ (Or.inr h)

/-- Phase 2 of `reorderEntry` never overwrites a truthy binding. -/
theorem reorderEntry_phase2 (entry : WordEntry) (K : String) (v : String) (hv : v ≠ "") :
    ∀ (keys : List String) (acc : WordEntry),
      getKey acc K = some v →
      getKey (keys.foldl
        (fun acc key => if jsTruthy (getKey acc key) then acc
          else setKey acc key ((getKey entry key).getD "")) acc) K = some v := by
  intro keys
  induction keys with
  | nil => intro acc h; exact h
  | cons key rest ih =>
    intro acc h
    rw [List.foldl_cons]
    by_cases hkK : key = K
    · subst hkK
      have htruthy : jsTruthy (getKey acc key) = true := by
        rw [h]; simp [jsTruthy, hv]
      rw [if_pos htruthy]
      exact ih _ h
    · by_cases ht : jsTruthy (getKey acc key) = true
      · rw [if_pos ht]; exact ih _ h
      · rw [if_neg ht]
        refine ih _ ?_
        rw [getKey_setKey_ne _ _ _ _ hkK]
        exact h

/-- `reorderEntry` keeps a truthy value at any key of the language order. -/
theorem reorderEntry_getKey (order : List String) (entry : WordEntry) (K : String)
    (v : String) (hK : K ∈ order) (h : getKey entry K = some v) (hv : v ≠ "") :
    getKey (reorderEntry order entry) K = some v := by
  unfold reorderEntry
  exact reorderEntry_phase2 entry K v hv _ _
    (reorderEntry_phase1 entry K v h hv order [] (Or.inl hK))

/-- `reorderWords` preserves every truthy (word, language-order key) value
for words listed among the stickers. -/
theorem reorderWords_wordVal (words : Words) (stickers : List Sticker)
    (languages : List Language) (wid K : String) (v : String)
    (hwid : wid ∈ stickers.map Sticker.id)
    (hK : K ∈ "en" :: languages.map Language.slug)
    (h : wordVal words wid K = some v) (hv : v ≠ "") :
    wordVal (reorderWords words stickers languages) wid K = some v := by
  obtain ⟨ent, hent1, hent2⟩ : ∃ ent, getKey words wid = some ent ∧ getKey ent K = some v := by
    unfold wordVal at h
    rcases hg : getKey words wid with _ | ent
    · rw [hg] at h; cases h
    · rw [hg] at h; exact ⟨ent, rfl, h⟩
  have hmem : wid ∈ firstDedup (stickers.map Sticker.id ++ words.map Prod.fst) :=
    mem_dedupAux _ [] wid (List.mem_append.mpr (Or.inl hwid)) (by simp)
  unfold reorderWords wordVal
  rw [getKey_foldl_setKey_mem
    (fun w => reorderEntry ("en" :: languages.map Language.slug) ((getKey words w).getD []))
    _ [] wid hmem]
  have : (getKey words wid).getD [] = ent := by rw [hent1]; rfl
  rw [this]
  exact reorderEntry_getKey _ ent K v hK hent2 hv

/-- Every targeted word id is a sticker id. -/
theorem targetWordIdsOf_subset (wordsFilter : Option (List String))
    (stickers : List Sticker) (wid : String)
    (h : wid ∈ targetWordIdsOf wordsFilter stickers) : wid ∈ stickers.map Sticker.id := by
  cases wordsFilter with
  | none => exact h
  | some ws =>
    rcases List.mem_map.mp h with ⟨s, hs, rfl⟩
    exact List.mem_map_of_mem Sticker.id (List.mem_of_mem_filter hs)

/-- Every selected target language is one of the configured languages. -/
theorem targetLanguagesOf_subset (languagesFilter : Option (List String))
    (allLanguages : List Language) (L : Language)
    (h : L ∈ targetLanguagesOf languagesFilter allLanguages) : L ∈ allLanguages := by
  have h1 := List.mem_of_mem_filter h
  cases languagesFilter with
  | none => exact h1
  | some ls => exact List.mem_of_mem_filter h1

/-- The slugs of the selected target languages inherit distinctness from the
configured language list. -/
theorem targetLanguagesOf_slug_nodup (languagesFilter : Option (List String))
    (allLanguages : List Language)
    (h : (allLanguages.map Language.slug).Nodup) :
    ((targetLanguagesOf languagesFilter allLanguages).map Language.slug).Nodup := by
  have hsub : List.Sublist (targetLanguagesOf languagesFilter allLanguages) allLanguages := by
    unfold targetLanguagesOf
    cases languagesFilter with
    | none => exact List.filter_sublist _
    | some ls => exact (List.filter_sublist _).trans (List.filter_sublist _)
  exact (hsub.map Language.slug).nodup h

/-- **C10**: in the translation runner, (i) after processing a language,
every targeted word id is mapped to a non-empty string for that language,
and when the API response omitted the id (or returned an unusable value so
that the normalized result has no entry for it), the word's English label
is stored in its place; (ii) consequently the written translations document
has a non-empty entry for every targeted (word, language) pair.  The
hypotheses record that sticker ids are non-empty and language slugs are
distinct, as in the repository's data files. -/
theorem translation_fills_targeted_words :
    ∀ (options : TransOptions) (allLanguages : List Language) (stickers : List Sticker)
      (words0 : Words) (api : Language → List TEntry → List (String × JsonVal)),
      (∀ s ∈ stickers, s.id ≠ "") →
      (allLanguages.map Language.slug).Nodup →
      options.dryRun = false →
      ((∀ (ws : Words) (L : Language) (wid : String),
          wid ∈ targetWordIdsOf options.words stickers →
          ∃ v, wordVal (processLanguage options.overwrite api
                (targetWordIdsOf options.words stickers) ws L).1 wid L.slug = some v ∧
            v ≠ "" ∧
            ((wid ∈ (entriesToTranslate options.overwrite ws L.slug
                  (targetWordIdsOf options.words stickers)).map TEntry.id ∧
              getKey (translateResult
                  (entriesToTranslate options.overwrite ws L.slug
                    (targetWordIdsOf options.words stickers))
                  (api L (entriesToTranslate options.overwrite ws L.slug
                    (targetWordIdsOf options.words stickers)))) wid = none) →
              v = englishLabelOf ws wid)) ∧
        (∀ doc,
          (translationMain options true allLanguages stickers words0 api).written = some doc →
          ∀ L ∈ targetLanguagesOf options.languages allLanguages,
          ∀ wid ∈ targetWordIdsOf options.words stickers,
          ∃ v, wordVal doc wid L.slug = some v ∧ v ≠ "")) := by
  intro options allLanguages stickers words0 api hids hnodup hdry
  have hne : ∀ wid ∈ targetWordIdsOf options.words stickers, wid ≠ "" := by
    intro wid hwid
    rcases List.mem_map.mp (targetWordIdsOf_subset options.words stickers wid hwid)
      with ⟨s, hs, rfl⟩
    exact hids s hs
  constructor
  · intro ws L wid hwid
    exact processLanguage_spec options.overwrite api
      (targetWordIdsOf options.words stickers) ws L wid hwid (hne wid hwid)
  · intro doc hdoc L hL wid hwid
    by_cases hlen : (targetLanguagesOf options.languages allLanguages).length = 0
    · simp [translationMain, hlen] at hdoc
    · simp [translationMain, hlen, hdry] at hdoc
      obtain ⟨v, hv, hvne⟩ := foldTargets_establish options.overwrite api
        (targetWordIdsOf options.words stickers)
        (targetLanguagesOf options.languages allLanguages)
        (ensureEnglishWords words0 stickers) 0
        (targetLanguagesOf_slug_nodup options.languages allLanguages hnodup)
        L hL wid hwid (hne wid hwid)
      refine ⟨v, ?_, hvne⟩
      rw [← hdoc]
      exact reorderWords_wordVal _ stickers allLanguages wid L.slug v
        (targetWordIdsOf_subset options.words stickers wid hwid)
        (List.mem_cons_of_mem _
          (List.mem_map_of_mem Language.slug
            (targetLanguagesOf_subset options.languages allLanguages L hL)))
        hv hvne

/-- Witness for **C10** on concrete data: one sticker, one target language,
an API response omitting every word — the written document still maps the
targeted pair to a truthy (non-empty) value. -/
theorem translation_fills_targeted_words_witness :
    (∀ s ∈ sampleStickers, s.id ≠ "") ∧
    (sampleLanguages.map Language.slug).Nodup ∧
    jsTruthy (wordVal
      ((translationMain {} true sampleLanguages sampleStickers [] emptyApi).written.getD [])
      "cat" "so") = true := by
  refine ⟨by decide, by decide, ?_⟩
  obtain ⟨v, hv, hvne⟩ :=
    (translation_fills_targeted_words {} sampleLanguages sampleStickers [] emptyApi
        (by decide) (by decide) rfl).2
      ((translationMain {} true sampleLanguages sampleStickers [] emptyApi).written.getD [])
      (by decide) ⟨"so", "Somali"⟩ (by decide) "cat" (by decide)
  rw [hv]
  simpa [jsTruthy] using hvne

end First100
